import Mathlib

/-!
Shallow embedding of the JSON parser in `src/lib.rs` (crate `json-parser-rs`).

Modelling conventions:
* The Rust character iterator (`&mut dyn Iterator<Item = char>`) is modelled as a
  `List Char`; consuming characters means continuing with a suffix of the list.
* Because the iterator is shared and mutable in Rust, even a failing sub-parser
  leaves the stream at a well-defined position.  This position is observable
  (`parse_array_impl` catches `UnexpectedChar(']')` from its first element parse
  and then keeps reading from the stream), so every parser here returns the
  remaining stream both on success and on failure:
  `Except (JsonError × List Char) (α × List Char)`.
* Rust `f64` values are modelled as `ℚ` (exact arithmetic).  All concrete inputs
  evaluated in the theorems below stay within the range where `f64` arithmetic
  is exact, so the modelling is faithful there.
* Rust `i32` arithmetic (the exponent accumulator) wraps on overflow; `wrap32`
  reduces an `Int` into `[-2^31, 2^31)` accordingly.
-/

/-- Model of `char::is_whitespace` of Rust: the Unicode `White_Space` property. -/
def rustIsWhitespace (c : Char) : Bool :=
  let n := c.toNat
  decide ((0x09 ≤ n ∧ n ≤ 0x0D) ∨ n = 0x20 ∨ n = 0x85 ∨ n = 0xA0 ∨ n = 0x1680 ∨
    (0x2000 ≤ n ∧ n ≤ 0x200A) ∨ n = 0x2028 ∨ n = 0x2029 ∨ n = 0x202F ∨
    n = 0x205F ∨ n = 0x3000)

/-- The Rust pattern `'0'..='9'`. -/
def isAsciiDigit (c : Char) : Bool :=
  decide ('0' ≤ c ∧ c ≤ '9')

/-- Model of `ch.to_digit(10).unwrap()` for `ch` matching `'0'..='9'`. -/
def digitVal (c : Char) : Nat :=
  c.toNat - '0'.toNat

/-- Model of `ch.to_digit(16)` of Rust. -/
def rustToDigit16 (c : Char) : Option Nat :=
  if '0' ≤ c ∧ c ≤ '9' then some (c.toNat - '0'.toNat)
  else if 'a' ≤ c ∧ c ≤ 'f' then some (c.toNat - 'a'.toNat + 10)
  else if 'A' ≤ c ∧ c ≤ 'F' then some (c.toNat - 'A'.toNat + 10)
  else none

/-- Reduce an `Int` into the `i32` range `[-2^31, 2^31)`, the wrapping
behaviour of Rust `i32` arithmetic. -/
def wrap32 (n : Int) : Int :=
  (n + 2 ^ 31) % 2 ^ 32 - 2 ^ 31

/-- Model of `f64::powi` modelled over `ℚ`. -/
def powi (q : Rat) (n : Int) : Rat :=
  if 0 ≤ n then q ^ n.toNat else 1 / q ^ (-n).toNat

/-- The error enum `JsonError` of `src/lib.rs`.  Note that the source declares
`LeadingZero` but never constructs it anywhere. -/
inductive JsonError : Type where
  | UnexpectedChar : Char → JsonError
  | UnexpectedKeyword : JsonError
  | UnknownEscapeCharacter : Char → JsonError
  | ExtraChars : List Char → JsonError
  | EarlyEndOfStream : JsonError
  | InvalidUnicode : JsonError
  | LeadingZero : JsonError
deriving DecidableEq

/-- The value enum `JsonObject` of `src/lib.rs`.  Rust `String` is modelled as
`List Char`, `f64` as `ℚ`, and the `Object` wrapper struct as its `entries`
list (an insertion-ordered list of key/value pairs). -/
inductive JsonObject : Type where
  | Object : List (List Char × JsonObject) → JsonObject
  | Array : List JsonObject → JsonObject
  | String : List Char → JsonObject
  | Boolean : Bool → JsonObject
  | Number : Rat → JsonObject
  | Null : JsonObject

/-- Model of `Object::get`: linear scan, first pair whose key equals the argument. -/
def Object.get (entries : List (List Char × JsonObject)) (index : List Char) :
    Option JsonObject :=
  (entries.find? (fun kv => kv.1 == index)).map (fun kv => kv.2)

/-- Model of `iter.take(n).eq(kw.chars())` for a mutable `iter`: returns whether the
comparison succeeded together with the stream position afterwards (Rust
`Iterator::eq` pulls pairs until a mismatch or both sides end, consuming
from the underlying iterator as it goes). -/
def eqTake : List Char → Nat → List Char → Bool × List Char
  | l, 0, [] => (true, l)
  | l, 0, _ :: _ => (false, l)
  | [], _ + 1, [] => (true, [])
  | [], _ + 1, _ :: _ => (false, [])
  | _ :: rest, _ + 1, [] => (false, rest)
  | c :: rest, n + 1, k :: kw =>
    if c = k then eqTake rest n kw else (false, rest)

/-- The digit loop of `parse_e_notation_impl`: accumulate exponent digits
(`i32` arithmetic), then apply `number * 10f64.powi(exponent * sign)`.
The loop never fails; a non-digit (or end of stream) terminates it and is
returned as the excess character. -/
def e_loop (number : Rat) (sign : Int) : Int → List Char → (Rat × Option Char) × List Char
  | exponent, [] => ((number * powi 10 (wrap32 (exponent * sign)), none), [])
  | exponent, c :: rest =>
    if isAsciiDigit c then
      e_loop number sign (wrap32 (exponent * 10 + (digitVal c : Int))) rest
    else ((number * powi 10 (wrap32 (exponent * sign)), some c), rest)

/-- Model of `parse_e_notation_impl`: reads an optional sign (or a first digit, which is
chained back in front of the digit loop), then the digit loop. -/
def parse_e_notation_impl (l : List Char) (number : Rat) :
    Except (JsonError × List Char) ((Rat × Option Char) × List Char) :=
  match l with
  | [] => .error (.EarlyEndOfStream, [])
  | c :: rest =>
    if c = '-' then .ok (e_loop number (-1) 0 rest)
    else if c = '+' then .ok (e_loop number 1 0 rest)
    else if isAsciiDigit c then .ok (e_loop number 1 0 (c :: rest))
    else .error (.UnexpectedChar c, rest)

/-- The `for n in 1..` loop of `parse_fraction_part_impl`: each digit
contributes `digit / 10^n`; `e`/`E` switches to exponent parsing; any other
character (or end of stream) terminates the number. -/
def fraction_loop (integer_part sign : Rat) : Rat → Nat → List Char →
    Except (JsonError × List Char) ((Rat × Option Char) × List Char)
  | number, _, [] => .ok (((integer_part + number) * sign, none), [])
  | number, n, c :: rest =>
    if isAsciiDigit c then
      fraction_loop integer_part sign (number + (digitVal c : Rat) / (10 : Rat) ^ n) (n + 1) rest
    else if c = 'e' ∨ c = 'E' then
      parse_e_notation_impl rest ((number + integer_part) * sign)
    else .ok (((integer_part + number) * sign, some c), rest)

/-- Model of `parse_fraction_part_impl`: to be called when `'.'` was encountered while
parsing a number. -/
def parse_fraction_part_impl (l : List Char) (integer_part sign : Rat) :
    Except (JsonError × List Char) ((Rat × Option Char) × List Char) :=
  fraction_loop integer_part sign 0 1 l

/-- The integer-digit loop of `parse_number_impl`. -/
def number_loop (sign : Rat) : Rat → List Char →
    Except (JsonError × List Char) ((Rat × Option Char) × List Char)
  | number, [] => .ok ((number * sign, none), [])
  | number, c :: rest =>
    if isAsciiDigit c then number_loop sign (number * 10 + (digitVal c : Rat)) rest
    else if c = '.' then parse_fraction_part_impl rest number sign
    else if c = 'e' ∨ c = 'E' then parse_e_notation_impl rest (number * sign)
    else .ok ((number * sign, some c), rest)

/-- Model of `parse_number_impl`: `starting_character` is the character already consumed
by the dispatcher; `l` is the rest of the stream. -/
def parse_number_impl (l : List Char) (starting_character : Char) :
    Except (JsonError × List Char) ((Rat × Option Char) × List Char) :=
  match (if starting_character = '-' then
           match l with
           | [] => none
           | c :: rest => some (((-1 : Rat), c), rest)
         else some (((1 : Rat), starting_character), l)) with
  | none => .error (.EarlyEndOfStream, [])
  | some ((sign, first_char), l₁) =>
    if '1' ≤ first_char ∧ first_char ≤ '9' then
      number_loop sign (digitVal first_char : Rat) l₁
    else if first_char = '0' then
      -- no leading 0 allowed other than for fraction (comment in the source);
      -- note the code merely hands back the next character as excess.
      match l₁ with
      | [] => .error (.EarlyEndOfStream, [])
      | c :: rest =>
        if c = '.' then parse_fraction_part_impl rest 0 sign
        else if c = 'e' ∨ c = 'E' then parse_e_notation_impl rest 0
        else .ok (((0, some c), rest))
    else .error (.UnexpectedChar first_char, l₁)

/-- The `for ch in json_iter.take(n)` hex-accumulation loop of
`parse_escaped_unicode`: reads up to `n` characters (fewer if the stream ends,
which is *not* an error in the source), each of which must be a hex digit. -/
def readHexUnits : Nat → Nat → List Char →
    Except (JsonError × List Char) (Nat × List Char)
  | 0, sum, l => .ok (sum, l)
  | _ + 1, sum, [] => .ok (sum, [])
  | n + 1, sum, c :: rest =>
    match rustToDigit16 c with
    | some d => readHexUnits n (sum * 0x10 + d) rest
    | none => .error (.InvalidUnicode, rest)

/-- Model of `parse_escaped_unicode`: 4 hex digits; a code unit in the surrogate range
must be followed by a literal `\u` and 4 more hex digits; the two units are
decoded as a UTF-16 surrogate pair (`char::decode_utf16`), which succeeds
exactly when the first is a high surrogate and the second a low surrogate. -/
def parse_escaped_unicode (l : List Char) :
    Except (JsonError × List Char) (Char × List Char) :=
  match readHexUnits 4 0 l with
  | .error e => .error e
  | .ok (sum, l₁) =>
    if 0xD800 ≤ sum ∧ sum ≤ 0xDFFF then
      match eqTake l₁ 2 ['\\', 'u'] with
      | (false, l₂) => .error (.InvalidUnicode, l₂)
      | (true, l₂) =>
        match readHexUnits 4 0 l₂ with
        | .error e => .error e
        | .ok (second_sum, l₃) =>
          if 0xD800 ≤ sum ∧ sum ≤ 0xDBFF ∧ 0xDC00 ≤ second_sum ∧ second_sum ≤ 0xDFFF then
            .ok (Char.ofNat (0x10000 + (sum - 0xD800) * 0x400 + (second_sum - 0xDC00)), l₃)
          else .error (.InvalidUnicode, l₃)
    else
      -- `char::from_u32(sum)`
      if 0x110000 ≤ sum ∨ (0xD800 ≤ sum ∧ sum < 0xE000) then .error (.InvalidUnicode, l₁)
      else .ok (Char.ofNat sum, l₁)

/-- Model of `parse_escape_character_impl`: dispatch on the character after `\`. -/
def parse_escape_character_impl (l : List Char) :
    Except (JsonError × List Char) (Char × List Char) :=
  match l with
  | [] => .error (.EarlyEndOfStream, [])
  | ch :: rest =>
    if ch = '"' ∨ ch = '\\' ∨ ch = '/' then .ok (ch, rest)
    else if ch = 'n' then .ok ('\n', rest)
    else if ch = 'r' then .ok ('\r', rest)
    else if ch = 't' then .ok ('\t', rest)
    else if ch = 'f' then .ok ('\x0C', rest)
    else if ch = 'b' then .ok ('\x08', rest)
    else if ch = 'u' then parse_escaped_unicode rest
    else .error (.UnknownEscapeCharacter ch, rest)

/-- Model of `parse_string_impl`: the opening `"` is already consumed; accumulate until
an unescaped `"`; a backslash invokes the escape decoder; end of stream is
`EarlyEndOfStream`.  The loop is bounded by `fuel` (`none` = fuel exhausted;
each iteration consumes at least one character, so any fuel larger than the
stream length is enough). -/
def parse_string_impl : Nat → List Char →
    Option (Except (JsonError × List Char) (List Char × List Char))
  | 0, _ => none
  | _ + 1, [] => some (.error (.EarlyEndOfStream, []))
  | _ + 1, '"' :: rest => some (.ok ([], rest))
  | fuel + 1, '\\' :: rest =>
    (match parse_escape_character_impl rest with
     | .error e => some (.error e)
     | .ok (c, rest₁) =>
       match parse_string_impl fuel rest₁ with
       | none => none
       | some (.error e) => some (.error e)
       | some (.ok (s, rest₂)) => some (.ok (c :: s, rest₂)))
  | fuel + 1, ch :: rest =>
    (match parse_string_impl fuel rest with
     | none => none
     | some (.error e) => some (.error e)
     | some (.ok (s, rest₁)) => some (.ok (ch :: s, rest₁)))

/-- Model of `parse_null_impl`: `json_iter.take(3).eq("ull".chars())`. -/
def parse_null_impl (l : List Char) :
    Except (JsonError × List Char) (JsonObject × List Char) :=
  match eqTake l 3 ['u', 'l', 'l'] with
  | (true, rest) => .ok (.Null, rest)
  | (false, rest) => .error (.UnexpectedKeyword, rest)

/-- Model of `parse_true_impl`: `json_iter.take(3).eq("rue".chars())`. -/
def parse_true_impl (l : List Char) :
    Except (JsonError × List Char) (JsonObject × List Char) :=
  match eqTake l 3 ['r', 'u', 'e'] with
  | (true, rest) => .ok (.Boolean true, rest)
  | (false, rest) => .error (.UnexpectedKeyword, rest)

/-- Model of `parse_false_impl`: `json_iter.take(4).eq("alse".chars())`. -/
def parse_false_impl (l : List Char) :
    Except (JsonError × List Char) (JsonObject × List Char) :=
  match eqTake l 4 ['a', 'l', 's', 'e'] with
  | (true, rest) => .ok (.Boolean false, rest)
  | (false, rest) => .error (.UnexpectedKeyword, rest)

/-!
The grammar walker.  `parse_json_impl`, `parse_array_impl` and
`parse_object_impl` are mutually recursive in the source; recursion depth is
bounded here by an explicit `fuel` parameter (`none` = fuel exhausted, which
never happens for large enough fuel).  The accumulator arguments of
`parse_array_impl` / `parse_object_impl` model the local `vec` / `object`
vectors and the `could_be_empty` flag of the source's loops.
-/

mutual

/-- Model of `parse_json_impl`: skip whitespace, dispatch on one character.  All
productions except numbers yield `none` as the excess lookahead character. -/
def parse_json_impl : Nat → List Char →
    Option (Except (JsonError × List Char) ((JsonObject × Option Char) × List Char))
  | 0, _ => none
  | fuel + 1, l =>
    match l.dropWhile rustIsWhitespace with
    | [] => some (.error (.EarlyEndOfStream, []))
    | ch :: rest =>
      if ch = 'n' then some ((parse_null_impl rest).map (fun vr => ((vr.1, none), vr.2)))
      else if ch = 't' then some ((parse_true_impl rest).map (fun vr => ((vr.1, none), vr.2)))
      else if ch = 'f' then some ((parse_false_impl rest).map (fun vr => ((vr.1, none), vr.2)))
      else if ch = '[' then
        (parse_array_impl fuel [] true rest).map
          (fun r => r.map (fun ar => ((JsonObject.Array ar.1, none), ar.2)))
      else if ch = '"' then
        match parse_string_impl fuel rest with
        | none => none
        | some r => some (r.map (fun sr => ((JsonObject.String sr.1, none), sr.2)))
      else if ch = '{' then
        (parse_object_impl fuel [] true rest).map
          (fun r => r.map (fun pr => ((JsonObject.Object pr.1, none), pr.2)))
      else
        some ((parse_number_impl rest ch).map
          (fun nr => ((JsonObject.Number nr.1.1, nr.1.2), nr.2)))

/-- Model of `parse_array_impl`: parse an element; on the first iteration only, an
`UnexpectedChar(']')` error is reinterpreted as the empty array; then splice
the excess, skip whitespace and expect `,` or `]`. -/
def parse_array_impl : Nat → List JsonObject → Bool → List Char →
    Option (Except (JsonError × List Char) (List JsonObject × List Char))
  | 0, _, _, _ => none
  | fuel + 1, vec, could_be_empty, l =>
    match parse_json_impl fuel l with
    | none => none
    | some (.error (err, rest)) =>
      -- on the first iteration only, `UnexpectedChar(']')` means "empty array"
      if could_be_empty ∧ err = JsonError.UnexpectedChar ']' then some (.ok (vec, rest))
      else some (.error (err, rest))
    | some (.ok ((value, excess), rest)) =>
      match (excess.toList ++ rest).dropWhile rustIsWhitespace with
      | [] => some (.error (.EarlyEndOfStream, []))
      | ch :: rest₁ =>
        if ch = ',' then parse_array_impl fuel (vec ++ [value]) false rest₁
        else if ch = ']' then some (.ok (vec ++ [value], rest₁))
        else some (.error (.UnexpectedChar ch, rest₁))

/-- Model of `parse_object_impl`: expect a `"` key (or `}` if no entry parsed yet),
`:`, a value; append the pair, then expect `,` or `}`. -/
def parse_object_impl : Nat → List (List Char × JsonObject) → Bool → List Char →
    Option (Except (JsonError × List Char) (List (List Char × JsonObject) × List Char))
  | 0, _, _, _ => none
  | fuel + 1, object, could_be_empty, l =>
    match l.dropWhile rustIsWhitespace with
    | [] => some (.error (.EarlyEndOfStream, []))
    | ch :: rest =>
      if ch = '"' then
        match parse_string_impl fuel rest with
        | none => none
        | some (.error e) => some (.error e)
        | some (.ok (key, rest₁)) =>
          match rest₁.dropWhile rustIsWhitespace with
          | [] => some (.error (.EarlyEndOfStream, []))
          | c₂ :: rest₂ =>
            if c₂ = ':' then
              match parse_json_impl fuel rest₂ with
              | none => none
              | some (.error e) => some (.error e)
              | some (.ok ((value, excess), rest₃)) =>
                match (excess.toList ++ rest₃).dropWhile rustIsWhitespace with
                | [] => some (.error (.EarlyEndOfStream, []))
                | c₃ :: rest₄ =>
                  if c₃ = ',' then parse_object_impl fuel (object ++ [(key, value)]) false rest₄
                  else if c₃ = '}' then some (.ok (object ++ [(key, value)], rest₄))
                  else some (.error (.UnexpectedChar c₃, rest₄))
            else some (.error (.UnexpectedChar c₂, rest₂))
      else if could_be_empty ∧ ch = '}' then some (.ok (object, rest))
      else some (.error (.UnexpectedChar ch, rest))

end

/-- Model of `parse_json_from_iter`: parse one value, splice the excess character in
front of the remaining stream, skip whitespace; any remaining content is
collected whole into `ExtraChars`. -/
def parse_json_from_iter (fuel : Nat) (l : List Char) :
    Option (Except JsonError JsonObject) :=
  match parse_json_impl fuel l with
  | none => none
  | some (.error (e, _)) => some (.error e)
  | some (.ok ((value, excess), rest)) =>
    match (excess.toList ++ rest).dropWhile rustIsWhitespace with
    | [] => some (.ok value)
    | ch :: more => some (.error (.ExtraChars (ch :: more)))

/-- Model of `parse_json_string`: convenience wrapper over the character stream form. -/
def parse_json_string (fuel : Nat) (json_str : String) :
    Option (Except JsonError JsonObject) :=
  parse_json_from_iter fuel json_str.data

/-- Render `d < 16` as an uppercase hexadecimal digit character (used to state
general facts about the Unicode-escape decoder over arbitrary code units). -/
def hexDigitChar (d : Nat) : Char :=
  if d < 10 then Char.ofNat ('0'.toNat + d) else Char.ofNat ('A'.toNat + (d - 10))

/-- Render a 16-bit code unit as its four uppercase hexadecimal digits. -/
def hex4 (n : Nat) : List Char :=
  [hexDigitChar (n / 4096 % 16), hexDigitChar (n / 256 % 16),
   hexDigitChar (n / 16 % 16), hexDigitChar (n % 16)]

/-!  Theorems.  -/

theorem rustToDigit16_hexDigitChar :
    ∀ d : Fin 16, rustToDigit16 (hexDigitChar d.val) = some d.val := by decide

theorem readHexUnits_hex4 (n : Nat) (hn : n < 0x10000) (r : List Char) :
    readHexUnits 4 0 (hex4 n ++ r) = .ok (n, r) := by
  have h₁ := rustToDigit16_hexDigitChar ⟨n / 4096 % 16, by omega⟩
  have h₂ := rustToDigit16_hexDigitChar ⟨n / 256 % 16, by omega⟩
  have h₃ := rustToDigit16_hexDigitChar ⟨n / 16 % 16, by omega⟩
  have h₄ := rustToDigit16_hexDigitChar ⟨n % 16, by omega⟩
  simp only [hex4, List.cons_append, List.nil_append, readHexUnits, h₁, h₂, h₃, h₄]
  have : (((0 * 0x10 + n / 4096 % 16) * 0x10 + n / 256 % 16) * 0x10 + n / 16 % 16) * 0x10
      + n % 16 = n := by omega
  rw [this]
  rfl

/-- C1: the claim says parsing "01" fails with the `LeadingZero` error.  On the
code it does not: `parse_number_impl` returns `Ok((0.0, Some('1')))` for a `0`
followed by a digit (the `LeadingZero` variant is declared but never
constructed anywhere in the source), so the top-level driver reports
`ExtraChars ['1']` instead.  This theorem evaluates the code at the claim's
own failing input. -/
theorem c1_leading_zero_is_never_produced :
    parse_json_string 100 "01" = some (.error (.ExtraChars ['1'])) ∧
    parse_number_impl ['1'] '0' = .ok ((0, some '1'), []) := by
  constructor
  · with_unfolding_all rfl
  · with_unfolding_all rfl

/-- C2: the claim says parsing the exact input "0" succeeds with Number(0.0).
On the code it does not: after consuming the `0`, `parse_number_impl` demands
a next character (`iter.next().ok_or(EarlyEndOfStream)?`), so the bare input
"0" fails with `EarlyEndOfStream` — while the whitespace-padded "   0   "
(the form the repository's own test uses) succeeds with Number(0.0). -/
theorem c2_bare_zero_fails_early_end_of_stream :
    parse_json_string 100 "0" = some (.error .EarlyEndOfStream) ∧
    parse_json_string 100 "   0   " = some (.ok (.Number 0)) := by
  constructor
  · with_unfolding_all rfl
  · with_unfolding_all rfl

/-- C3 counterexample: the claim says "1e+" (sign followed by no digit) is a
parse error; on the code it parses successfully to Number(1.0) — the exponent
digit loop tolerates zero digits and leaves the exponent at 0. -/
theorem c3_counterexample_sign_without_digits_parses :
    parse_json_string 100 "1e+" = some (.ok (.Number 1)) := by
  with_unfolding_all rfl

/-- C3 (amended): after `e`/`E` one character is required — `"1e"` at end of
input is `EarlyEndOfStream`, and a character that is neither a sign nor a
digit is `UnexpectedChar` — but a `+`/`-` sign followed by *no* digit at all
is accepted with exponent 0, so "1e+" and "1e-" parse successfully to
Number(1.0). -/
theorem c3_amended_exponent_requirements :
    parse_json_string 100 "1e+" = some (.ok (.Number 1)) ∧
    parse_json_string 100 "1e-" = some (.ok (.Number 1)) ∧
    parse_json_string 100 "1e" = some (.error .EarlyEndOfStream) ∧
    parse_json_string 100 "1ex" = some (.error (.UnexpectedChar 'x')) ∧
    parse_e_notation_impl [] 1 = .error (.EarlyEndOfStream, []) ∧
    parse_e_notation_impl ['+'] 1 = .ok ((1, none), []) := by
  refine ⟨?_, ?_, ?_, ?_, ?_, ?_⟩
  · with_unfolding_all rfl
  · with_unfolding_all rfl
  · with_unfolding_all rfl
  · with_unfolding_all rfl
  · with_unfolding_all rfl
  · with_unfolding_all rfl

/-- C7: parsing an object literal with duplicate keys preserves every pair in
insertion order (one entry per source pair, no overwriting), and `Object::get`
returns the value of the first pair whose key equals the argument — value 1
for the example; the general first-match property of `get` is the third
conjunct. -/
theorem c7_duplicate_keys_preserved_first_match :
    parse_json_string 100 "\x7b\"a\":1,\"a\":2\x7d" =
      some (.ok (.Object [(['a'], .Number 1), (['a'], .Number 2)])) ∧
    Object.get [(['a'], .Number 1), (['a'], .Number 2)] ['a'] = some (.Number 1) ∧
    (∀ (k : List Char) (v : JsonObject) (t : List (List Char × JsonObject)),
      Object.get ((k, v) :: t) k = some v) := by
  refine ⟨?_, ?_, ?_⟩
  · with_unfolding_all rfl
  · with_unfolding_all rfl
  · intro k v t
    simp [Object.get, List.find?]

/-- C9: a decimal point need not be followed by any digit: "1." parses to
Number(1.0) and "0." to Number(0.0); the fraction accumulator maps an
immediately terminating stream to a zero-digit fraction
(`(integer_part + 0) * sign`, no excess). -/
theorem c9_trailing_decimal_point_accepted :
    parse_json_string 100 "1." = some (.ok (.Number 1)) ∧
    parse_json_string 100 "0." = some (.ok (.Number 0)) ∧
    parse_fraction_part_impl [] 1 1 = .ok ((1, none), []) := by
  refine ⟨?_, ?_, ?_⟩
  · with_unfolding_all rfl
  · with_unfolding_all rfl
  · with_unfolding_all rfl

/-- C10: whitespace skipping uses Rust's `char::is_whitespace` (the full
Unicode White_Space property), not just space/tab/CR/LF: the input
U+00A0 (no-break space) ++ "null" ++ U+2028 (line separator) parses to Null,
and both characters are accepted by the whitespace predicate. -/
theorem c10_unicode_whitespace_accepted :
    parse_json_string 100 "\u00A0null\u2028" = some (.ok .Null) ∧
    rustIsWhitespace '\u00A0' = true ∧
    rustIsWhitespace '\u2028' = true := by
  refine ⟨?_, ?_, ?_⟩
  · with_unfolding_all rfl
  · with_unfolding_all rfl
  · with_unfolding_all rfl

/-- C4: in the array production, an `UnexpectedChar(']')` error from parsing an
element is reinterpreted as the (accumulated, for the entry call: empty) array
exactly when no element has been parsed yet (`could_be_empty = true`), and is
propagated unchanged afterwards (`could_be_empty = false`); consequently
`parse("[]")` and `parse("   [ ]   ")` are empty arrays while `parse("[1,]")`,
where the same error arises at the second element, fails. -/
theorem c4_first_iteration_empty_array :
    (∀ (fuel : Nat) (l : List Char) (vec : List JsonObject) (rest : List Char),
      parse_json_impl fuel l = some (.error (.UnexpectedChar ']', rest)) →
      parse_array_impl (fuel + 1) vec true l = some (.ok (vec, rest)) ∧
      parse_array_impl (fuel + 1) vec false l =
        some (.error (.UnexpectedChar ']', rest))) ∧
    parse_json_string 100 "[]" = some (.ok (.Array [])) ∧
    parse_json_string 100 "   [ ]   " = some (.ok (.Array [])) ∧
    parse_json_string 100 "[1,]" = some (.error (.UnexpectedChar ']')) := by
  refine ⟨?_, ?_, ?_, ?_⟩
  · intro fuel l vec rest h
    constructor
    · simp [parse_array_impl, h]
    · simp [parse_array_impl, h]
  · with_unfolding_all rfl
  · with_unfolding_all rfl
  · with_unfolding_all rfl

/-- C4 witness: the general part at the concrete stream "]" (what remains
after the `[` of "[]"), where the element parse fails with
`UnexpectedChar(']')`. -/
theorem c4_first_iteration_empty_array_witness :
    parse_array_impl 4 [] true [']'] = some (.ok ([], [])) ∧
    parse_array_impl 4 [] false [']'] = some (.error (.UnexpectedChar ']', [])) :=
  c4_first_iteration_empty_array.1 3 [']'] [] [] (by with_unfolding_all rfl)

/-- C8: after one complete top-level value, the driver splices the excess
character in front of the remaining stream and skips whitespace; if anything
remains, it fails with `ExtraChars` carrying the first non-whitespace
character together with the entire remainder after it — in particular
`parse("123 abc")` fails with `ExtraChars ['a','b','c']`. -/
theorem c8_extra_chars_collects_all_remaining :
    (∀ (fuel : Nat) (l : List Char) (v : JsonObject) (exc : Option Char)
       (rest : List Char) (ch : Char) (more : List Char),
      parse_json_impl fuel l = some (.ok ((v, exc), rest)) →
      (exc.toList ++ rest).dropWhile rustIsWhitespace = ch :: more →
      parse_json_from_iter fuel l = some (.error (.ExtraChars (ch :: more)))) ∧
    parse_json_string 100 "123 abc" = some (.error (.ExtraChars ['a', 'b', 'c'])) := by
  constructor
  · intro fuel l v exc rest ch more h₁ h₂
    simp only [parse_json_from_iter, h₁, h₂]
  · with_unfolding_all rfl

/-- C8 witness: the general part at the concrete input "123 abc", whose value
parse yields Number(123.0) with excess `' '` and remainder "abc". -/
theorem c8_extra_chars_collects_all_remaining_witness :
    parse_json_from_iter 100 "123 abc".data = some (.error (.ExtraChars ['a', 'b', 'c'])) :=
  c8_extra_chars_collects_all_remaining.1 100 "123 abc".data (.Number 123) (some ' ')
    "abc".data 'a' ['b', 'c'] (by with_unfolding_all rfl) (by with_unfolding_all rfl)

/-- C5: whenever value parsing succeeds, the excess lookahead character can be
present only when the parsed production is a number; for an object, array,
string, boolean or null result the excess is always `none` (each non-number
branch of `parse_json_impl` pairs its value with `none`). -/
theorem c5_excess_only_for_numbers (fuel : Nat) (l : List Char) (v : JsonObject)
    (exc : Option Char) (rest : List Char)
    (h : parse_json_impl fuel l = some (.ok ((v, exc), rest))) :
    (∃ q, v = JsonObject.Number q) ∨ exc = none := by
  cases fuel with
  | zero => simp [parse_json_impl] at h
  | succ fuel =>
    simp only [parse_json_impl] at h
    split at h
    · simp at h
    · rename_i ch rest₀ heq
      split_ifs at h with h₁ h₂ h₃ h₄ h₅ h₆
      · right
        cases hx : parse_null_impl rest₀ with
        | error e => rw [hx] at h; simp [Except.map] at h
        | ok vr =>
          rw [hx] at h
          simp only [Except.map, Option.some.injEq, Except.ok.injEq, Prod.mk.injEq] at h
          exact h.1.2.symm
      · right
        cases hx : parse_true_impl rest₀ with
        | error e => rw [hx] at h; simp [Except.map] at h
        | ok vr =>
          rw [hx] at h
          simp only [Except.map, Option.some.injEq, Except.ok.injEq, Prod.mk.injEq] at h
          exact h.1.2.symm
      · right
        cases hx : parse_false_impl rest₀ with
        | error e => rw [hx] at h; simp [Except.map] at h
        | ok vr =>
          rw [hx] at h
          simp only [Except.map, Option.some.injEq, Except.ok.injEq, Prod.mk.injEq] at h
          exact h.1.2.symm
      · right
        cases hx : parse_array_impl fuel [] true rest₀ with
        | none => rw [hx] at h; simp at h
        | some r =>
          rw [hx] at h
          cases r with
          | error e => simp [Except.map] at h
          | ok ar =>
            simp only [Option.map, Except.map, Option.some.injEq, Except.ok.injEq,
              Prod.mk.injEq] at h
            exact h.1.2.symm
      · right
        cases hx : parse_string_impl fuel rest₀ with
        | none => rw [hx] at h; simp at h
        | some r =>
          rw [hx] at h
          cases r with
          | error e => simp [Except.map] at h
          | ok sr =>
            simp only [Except.map, Option.some.injEq, Except.ok.injEq, Prod.mk.injEq] at h
            exact h.1.2.symm
      · right
        cases hx : parse_object_impl fuel [] true rest₀ with
        | none => rw [hx] at h; simp at h
        | some r =>
          rw [hx] at h
          cases r with
          | error e => simp [Except.map] at h
          | ok pr =>
            simp only [Option.map, Except.map, Option.some.injEq, Except.ok.injEq,
              Prod.mk.injEq] at h
            exact h.1.2.symm
      · left
        cases hx : parse_number_impl rest₀ ch with
        | error e => rw [hx] at h; simp [Except.map] at h
        | ok nr =>
          rw [hx] at h
          simp only [Except.map, Option.some.injEq, Except.ok.injEq, Prod.mk.injEq] at h
          exact ⟨nr.1.1, h.1.1.symm⟩

/-- C5 witness: the general invariant applied at the concrete input "null"
(a non-number production, whose excess is indeed `none`). -/
theorem c5_excess_only_for_numbers_witness :
    (∃ q, JsonObject.Null = JsonObject.Number q) ∨ (none : Option Char) = none :=
  c5_excess_only_for_numbers 1 "null".data .Null none []
    (by with_unfolding_all rfl)

/-- C6: a `\uXXXX` code unit in the surrogate range [0xD800, 0xDFFF] must be
followed by a literal `\u` and four more hex digits; the two units decode via
UTF-16 pairing to the single combined scalar value exactly when the first is
a high surrogate and the second a low surrogate, and to `InvalidUnicode`
otherwise (first conjunct); if the `\u` continuation is missing the result is
`InvalidUnicode` (second conjunct); concretely, `"\uD83D\uDE10"` parses to
the one-scalar string U+1F610 and a lone `"\uD800"` is `InvalidUnicode`. -/
theorem c6_surrogate_pair_decoding :
    (∀ (s s₂ : Nat) (tail : List Char),
      0xD800 ≤ s → s ≤ 0xDFFF → s₂ < 0x10000 →
      parse_escaped_unicode (hex4 s ++ '\\' :: 'u' :: hex4 s₂ ++ tail) =
        if 0xD800 ≤ s ∧ s ≤ 0xDBFF ∧ 0xDC00 ≤ s₂ ∧ s₂ ≤ 0xDFFF then
          .ok (Char.ofNat (0x10000 + (s - 0xD800) * 0x400 + (s₂ - 0xDC00)), tail)
        else .error (.InvalidUnicode, tail)) ∧
    (∀ (s : Nat) (rest : List Char),
      0xD800 ≤ s → s ≤ 0xDFFF → (eqTake rest 2 ['\\', 'u']).1 = false →
      parse_escaped_unicode (hex4 s ++ rest) =
        .error (.InvalidUnicode, (eqTake rest 2 ['\\', 'u']).2)) ∧
    parse_json_string 100 "\"\\uD83D\\uDE10\"" =
      some (.ok (.String [Char.ofNat 0x1F610])) ∧
    parse_json_string 100 "\"\\uD800\"" = some (.error .InvalidUnicode) := by
  refine ⟨?_, ?_, ?_, ?_⟩
  · intro s s₂ tail hs1 hs2 hs3
    unfold parse_escaped_unicode
    rw [show hex4 s ++ '\\' :: 'u' :: hex4 s₂ ++ tail =
          hex4 s ++ ('\\' :: 'u' :: (hex4 s₂ ++ tail)) from rfl,
        readHexUnits_hex4 s (by omega)]
    simp only [if_pos (And.intro hs1 hs2)]
    rw [show eqTake ('\\' :: 'u' :: (hex4 s₂ ++ tail)) 2 ['\\', 'u'] =
          (true, hex4 s₂ ++ tail) from rfl]
    simp only []
    rw [readHexUnits_hex4 s₂ hs3]
  · intro s rest hs1 hs2 hf
    unfold parse_escaped_unicode
    rw [readHexUnits_hex4 s (by omega)]
    simp only [if_pos (And.intro hs1 hs2)]
    cases he : eqTake rest 2 ['\\', 'u'] with
    | mk b l₂ =>
      rw [he] at hf
      simp only at hf
      subst hf
      simp only [he]
  · with_unfolding_all rfl
  · with_unfolding_all rfl

/-- C6 witness: the pairing rule applied at the concrete units 0xD83D (high)
and 0xDE10 (low), which combine to the scalar value 0x1F610. -/
theorem c6_surrogate_pair_decoding_witness :
    parse_escaped_unicode (hex4 0xD83D ++ '\\' :: 'u' :: hex4 0xDE10 ++ []) =
      if 0xD800 ≤ 0xD83D ∧ 0xD83D ≤ 0xDBFF ∧ 0xDC00 ≤ 0xDE10 ∧ 0xDE10 ≤ 0xDFFF then
        .ok (Char.ofNat (0x10000 + (0xD83D - 0xD800) * 0x400 + (0xDE10 - 0xDC00)), [])
      else .error (.InvalidUnicode, []) :=
  c6_surrogate_pair_decoding.1 0xD83D 0xDE10 [] (by decide) (by decide) (by decide)
